import Mathlib

/-!
Verification of the faize-cli repository: a shallow embedding of the
network-policy parser (`internal/network/allowlist.go`), the mount validator
(`internal/mount/validator.go`), the console escape writer and OAuth helpers
(`internal/vm`), the session JSON store (`internal/session`), and the guest
init-script generator (`internal/guest`), together with theorems settling the
spec's claims about them.

Go machine strings are modelled as Lean `String` (a packed `List Char`);
Go byte slices as `List Nat`; Go `error` results as `Option String`.
-/

namespace Faize

/-! ### Models of the Go standard-library string helpers used by the code -/

/-- Model of Go `strings.HasPrefix`. -/
def goHasPrefix (s pre : String) : Bool :=
  pre.data.isPrefixOf s.data

/-- Model of Go `strings.HasSuffix`. -/
def goHasSuffix (s suf : String) : Bool :=
  suf.data.isSuffixOf s.data

/-- Model of Go `strings.TrimPrefix`. -/
def goTrimPrefix (s pre : String) : String :=
  if goHasPrefix s pre then ⟨s.data.drop pre.data.length⟩ else s

/-- `containsSeq sub l` is true when `sub` occurs contiguously inside `l`
(model of the search underlying Go `strings.Contains`). -/
def containsSeq (sub : List Char) : List Char → Bool
  | [] => sub.isEmpty
  | c :: rest => sub.isPrefixOf (c :: rest) || containsSeq sub rest

/-- Model of Go `strings.Contains`. -/
def goContains (s sub : String) : Bool :=
  containsSeq sub.data s.data

/-- ASCII lower-casing of one character (the only case change Go
`strings.ToLower` performs on the ASCII inputs this program handles). -/
def lowerChar (c : Char) : Char :=
  if 65 ≤ c.toNat && c.toNat ≤ 90 then Char.ofNat (c.toNat + 32) else c

/-- Model of Go `strings.ToLower`. -/
def goToLower (s : String) : String :=
  ⟨s.data.map lowerChar⟩

/-- Unicode white space as tested by Go `unicode.IsSpace` (ASCII portion). -/
def isSpaceChar (c : Char) : Bool :=
  c == ' ' || c == '\t' || c == '\n' || c == '\x0b' || c == '\x0c' || c == '\r'

/-- Model of Go `strings.TrimSpace`. -/
def goTrimSpace (s : String) : String :=
  ⟨((s.data.dropWhile isSpaceChar).reverse.dropWhile isSpaceChar).reverse⟩

/-- Model of Go `strings.Join` with a separator. -/
def goJoin (parts : List String) (sep : String) : String :=
  ⟨((parts.map String.data).intersperse sep.data).flatten⟩

/-! ### `internal/network/allowlist.go` -/

/-- `Presets` map from allowlist.go, as an association list (only looked up). -/
def Presets : List (String × List String) :=
  [("npm", ["registry.npmjs.org", "npmjs.com"]),
   ("pypi", ["pypi.org", "files.pythonhosted.org"]),
   ("github", ["github.com", "api.github.com", "raw.githubusercontent.com"]),
   ("anthropic", ["api.anthropic.com", "anthropic.com"]),
   ("openai", ["api.openai.com", "openai.com"]),
   ("bun", ["bun.sh", "registry.npmjs.org"])]

/-- Special value `NetworkAll` from allowlist.go. -/
def NetworkAll : String := "all"

/-- Special value `NetworkNone` from allowlist.go. -/
def NetworkNone : String := "none"

/-- `Policy` struct from allowlist.go. -/
structure Policy where
  AllowAll : Bool
  Blocked : Bool
  Domains : List String
  Wildcards : List String
deriving DecidableEq, Repr

/-- The policy returned by `Parse` when it meets the token `all`. -/
def allowAllPolicy : Policy :=
  { AllowAll := true, Blocked := false, Domains := [], Wildcards := [] }

/-- The policy returned by `Parse` when it meets the token `none`. -/
def blockAllPolicy : Policy :=
  { AllowAll := false, Blocked := true, Domains := [], Wildcards := [] }

/-- `IsWildcard` from allowlist.go. -/
def IsWildcard (domain : String) : Bool :=
  goHasPrefix domain "*."

/-- `ValidateWildcard` from allowlist.go; `some msg` is the error case. -/
def ValidateWildcard (pattern : String) : Option String :=
  if !IsWildcard pattern then some ("not a wildcard pattern: " ++ pattern)
  else
    let baseDomain := goTrimPrefix pattern "*."
    if goContains pattern "**" then some ("recursive wildcards not supported: " ++ pattern)
    else if goContains baseDomain "*" then some ("mid-level wildcards not supported: " ++ pattern)
    else if !goContains baseDomain "." then some ("TLD wildcards not allowed: " ++ pattern)
    else if baseDomain == "" then some ("invalid wildcard pattern: " ++ pattern)
    else none

/-- `ExtractBaseDomain` from allowlist.go. -/
def ExtractBaseDomain (pattern : String) : String :=
  goTrimPrefix pattern "*."

/-- The normalization `strings.TrimSpace(strings.ToLower(spec))` applied to
every token at the top of both loops of `Parse`. -/
def normalizeSpec (s : String) : String :=
  goTrimSpace (goToLower s)

/-- First pass of `Parse`: scan for the special values `all`/`none` and
return the corresponding policy at the first hit. -/
def scanSpecial : List String → Option Policy
  | [] => none
  | spec :: rest =>
    let spec := normalizeSpec spec
    if spec = NetworkAll then some allowAllPolicy
    else if spec = NetworkNone then some blockAllPolicy
    else scanSpecial rest

/-- Second pass of `Parse`: process presets, wildcards and literal domains,
appending to the accumulating policy exactly as the Go loop does. -/
def secondPass (pol : Policy) : List String → Policy
  | [] => pol
  | spec :: rest =>
    let spec := normalizeSpec spec
    match Presets.lookup spec with
    | some presetDomains =>
        secondPass { pol with Domains := pol.Domains ++ presetDomains } rest
    | none =>
        if IsWildcard spec then
          if ValidateWildcard spec = none then
            secondPass { pol with Wildcards := pol.Wildcards ++ [spec] } rest
          else
            secondPass pol rest
        else
          secondPass { pol with Domains := pol.Domains ++ [spec] } rest

/-- Inner loop of `deduplicateDomains`: the `seen` set is modelled as the
list of domains already recorded. -/
def dedupGo (seen : List String) : List String → List String
  | [] => []
  | d :: rest =>
    if seen.contains d then dedupGo seen rest
    else d :: dedupGo (d :: seen) rest

/-- `deduplicateDomains` from allowlist.go. -/
def deduplicateDomains (domains : List String) : List String :=
  dedupGo [] domains

/-- `Parse` from allowlist.go. -/
def Parse (specs : List String) : Policy :=
  if specs.length = 0 then
    { AllowAll := false, Blocked := true, Domains := [], Wildcards := [] }
  else
    match scanSpecial specs with
    | some pol => pol
    | none =>
      let pol := secondPass { AllowAll := false, Blocked := false, Domains := [], Wildcards := [] } specs
      { pol with Domains := deduplicateDomains pol.Domains,
                 Wildcards := deduplicateDomains pol.Wildcards }

/-! ### Lemmas about `Parse` -/

/-- Domains contributed by a single (already processed) token of the second
pass of `Parse`. -/
def specDomains (spec : String) : List String :=
  let t := normalizeSpec spec
  match Presets.lookup t with
  | some presetDomains => presetDomains
  | none => if IsWildcard t then [] else [t]

/-- Wildcards contributed by a single token of the second pass of `Parse`. -/
def specWildcards (spec : String) : List String :=
  let t := normalizeSpec spec
  match Presets.lookup t with
  | some _ => []
  | none =>
    if IsWildcard t then
      if ValidateWildcard t = none then [t] else []
    else []

theorem secondPass_eq (l : List String) : ∀ pol : Policy,
    secondPass pol l =
      { pol with Domains := pol.Domains ++ l.flatMap specDomains,
                 Wildcards := pol.Wildcards ++ l.flatMap specWildcards } := by
  induction l with
  | nil => intro pol; simp [secondPass]
  | cons s rest ih =>
    intro pol
    simp only [secondPass, List.flatMap_cons]
    cases h : Presets.lookup (normalizeSpec s) with
    | some pd =>
      simp [ih, specDomains, specWildcards, h, List.append_assoc]
    | none =>
      by_cases hw : IsWildcard (normalizeSpec s)
      · by_cases hv : ValidateWildcard (normalizeSpec s) = none
        · simp [hw, hv, ih, specDomains, specWildcards, h, List.append_assoc]
        · simp [hw, hv, ih, specDomains, specWildcards, h]
      · simp [hw, ih, specDomains, specWildcards, h, List.append_assoc]

theorem scanSpecial_append (a b : List String) :
    scanSpecial (a ++ b) =
      match scanSpecial a with
      | some p => some p
      | none => scanSpecial b := by
  induction a with
  | nil => simp [scanSpecial]
  | cons s rest ih =>
    simp only [List.cons_append, scanSpecial]
    by_cases h1 : normalizeSpec s = NetworkAll
    · simp [h1]
    · by_cases h2 : normalizeSpec s = NetworkNone
      · simp [h1, h2, NetworkAll, NetworkNone]
      · simp [h1, h2, ih]

theorem scanSpecial_skip (pre : List String) (rest : List String)
    (h : ∀ t ∈ pre, normalizeSpec t ≠ NetworkAll ∧ normalizeSpec t ≠ NetworkNone) :
    scanSpecial (pre ++ rest) = scanSpecial rest := by
  induction pre with
  | nil => simp
  | cons s p ih =>
    have hs := h s (by simp)
    simp only [List.cons_append, scanSpecial]
    rw [if_neg hs.1, if_neg hs.2]
    exact ih fun t ht => h t (by simp [ht])

theorem dedupGo_nil_of_mem (l : List String) : ∀ seen : List String,
    (∀ x ∈ l, seen.contains x = true) → dedupGo seen l = [] := by
  induction l with
  | nil => intro seen _; rfl
  | cons d rest ih =>
    intro seen h
    have hd : seen.contains d = true := h d (by simp)
    simp only [dedupGo, hd, if_pos]
    exact ih seen fun x hx => h x (by simp [hx])

theorem dedupGo_append_absorb (l : List String) : ∀ (l2 seen : List String),
    (∀ x ∈ l2, x ∈ l ∨ seen.contains x = true) →
    dedupGo seen (l ++ l2) = dedupGo seen l := by
  induction l with
  | nil =>
    intro l2 seen h
    simp only [List.nil_append, dedupGo]
    exact dedupGo_nil_of_mem l2 seen fun x hx => by
      rcases h x hx with h' | h'
      · exact absurd h' (List.not_mem_nil x)
      · exact h'
  | cons d rest ih =>
    intro l2 seen h
    simp only [List.cons_append, dedupGo]
    by_cases hd : seen.contains d = true
    · rw [if_pos hd, if_pos hd]
      exact ih l2 seen fun x hx => by
        rcases h x hx with h' | h'
        · rcases List.mem_cons.mp h' with h'' | h''
          · exact Or.inr (h'' ▸ hd)
          · exact Or.inl h''
        · exact Or.inr h'
    · rw [if_neg hd, if_neg hd]
      congr 1
      exact ih l2 (d :: seen) fun x hx => by
        rcases h x hx with h' | h'
        · rcases List.mem_cons.mp h' with h'' | h''
          · exact Or.inr (by simp [h''])
          · exact Or.inl h''
        · exact Or.inr (by
            have hx' : x ∈ seen := by simpa using h'
            simp [List.contains_cons, hx'])

theorem deduplicateDomains_self_append (l : List String) :
    deduplicateDomains (l ++ l) = deduplicateDomains l := by
  unfold deduplicateDomains
  exact dedupGo_append_absorb l l [] fun x hx => Or.inl hx

/-- **C8** — For every spec list `x`, `Parse (x ++ x)` equals `Parse x`
(in fact exactly, which implies equality of the `AllowAll` and `Blocked`
flags and of the domain and wildcard sets, order included). -/
theorem Parse_append_self (x : List String) : Parse (x ++ x) = Parse x := by
  cases x with
  | nil => rfl
  | cons s rest =>
    unfold Parse
    have hlen : ((s :: rest) ++ (s :: rest)).length ≠ 0 := by simp
    have hlen' : (s :: rest).length ≠ 0 := by simp
    rw [if_neg hlen, if_neg hlen', scanSpecial_append]
    cases h : scanSpecial (s :: rest) with
    | some p => rfl
    | none =>
      simp only
      rw [secondPass_eq, secondPass_eq]
      simp only [List.flatMap_append, List.nil_append]
      rw [deduplicateDomains_self_append, deduplicateDomains_self_append]

/-- **C1 (counterexample)** — the claim "any token `all` forces the allow-all
policy irrespective of the other tokens" fails on `["none", "all"]`: the list
contains the token `all` (already trimmed and lowercased), yet `Parse`
returns the block-all policy, not the allow-all policy. -/
theorem Parse_all_token_counterexample :
    "all" ∈ (["none", "all"].map normalizeSpec) ∧
    Parse ["none", "all"] = blockAllPolicy ∧
    Parse ["none", "all"] ≠ allowAllPolicy := by
  decide

/-- **C1 (amended)** — the first token that normalizes to `all` or `none`
decides the policy, irrespective of all other tokens: if no earlier token is
special, a token `all` yields the allow-all policy and a token `none` yields
the block-all policy. -/
theorem Parse_special_precedence (pre post : List String) (s : String)
    (h : ∀ t ∈ pre, normalizeSpec t ≠ NetworkAll ∧ normalizeSpec t ≠ NetworkNone) :
    (normalizeSpec s = NetworkAll → Parse (pre ++ s :: post) = allowAllPolicy)
    ∧ (normalizeSpec s = NetworkNone → Parse (pre ++ s :: post) = blockAllPolicy) := by
  have hlen : (pre ++ s :: post).length ≠ 0 := by simp
  have hscan : scanSpecial (pre ++ s :: post) = scanSpecial (s :: post) :=
    scanSpecial_skip pre (s :: post) h
  constructor
  · intro hs
    unfold Parse
    rw [if_neg hlen, hscan]
    simp [scanSpecial, hs]
  · intro hs
    unfold Parse
    rw [if_neg hlen, hscan]
    have hne : normalizeSpec s ≠ NetworkAll := by
      rw [hs]; decide
    simp [scanSpecial, hs, hne, NetworkAll, NetworkNone]

/-- Witness for `Parse_special_precedence` at a concrete input: in
`["custom.org", "all", "none"]` the first special token is `all`, so the
result is the allow-all policy. -/
theorem Parse_special_precedence_witness :
    Parse ["custom.org", "all", "none"] = allowAllPolicy :=
  (Parse_special_precedence ["custom.org"] ["none"] "all" (by decide)).1 (by decide)

/-- **C4** — `Parse ["NPM", "*.example.com", "custom.org", "*.com"]` yields a
policy that is neither allow-all nor block-all, with domains exactly
`registry.npmjs.org`, `npmjs.com`, `custom.org` and wildcards exactly
`*.example.com`; the invalid wildcard `*.com` appears in neither list. -/
theorem Parse_npm_example :
    Parse ["NPM", "*.example.com", "custom.org", "*.com"] =
      { AllowAll := false, Blocked := false,
        Domains := ["registry.npmjs.org", "npmjs.com", "custom.org"],
        Wildcards := ["*.example.com"] } ∧
    "*.com" ∉ (Parse ["NPM", "*.example.com", "custom.org", "*.com"]).Domains ∧
    "*.com" ∉ (Parse ["NPM", "*.example.com", "custom.org", "*.com"]).Wildcards := by
  decide

/-! ### `internal/mount/validator.go` -/

/-- `isUnderOrEqual` from validator.go (`filepath.Separator` is `/`). -/
def isUnderOrEqual (testPath basePath : String) : Bool :=
  if testPath = basePath then true
  else
    let baseWithSep := if goHasSuffix basePath "/" then basePath else basePath ++ "/"
    goHasPrefix testPath baseWithSep

/-- The blocked-path loop of `Validator.Validate` from validator.go. The
filesystem effects that precede it (homedir expansion, `filepath.Abs`,
`filepath.EvalSymlinks`) are modelled by passing their outputs in:
`source` is the raw `m.Source`, `sourcePath` the expanded absolute path and
`realPath` the symlink-resolved path. -/
def validateResolved (blockedPaths : List String) (source sourcePath realPath : String) :
    Option String :=
  match blockedPaths with
  | [] => none
  | blocked :: rest =>
    if isUnderOrEqual realPath blocked then
      if realPath ≠ sourcePath then
        some ("mount blocked: " ++ source ++ " resolves to protected path " ++ blocked)
      else
        some ("mount blocked: " ++ blocked ++ " is a protected path")
    else validateResolved rest source sourcePath realPath

/-- The specification's notion of protection, written from its words: the
resolved path is equal to the protected prefix, or a strict subpath of it
(the prefix followed by a separator and a nonempty remainder). -/
def ProtectedBySpec (realPath blocked : String) : Prop :=
  realPath = blocked ∨
    ∃ rest : List Char, rest ≠ [] ∧ realPath.data = blocked.data ++ '/' :: rest

theorem isUnderOrEqual_iff (r b : String)
    (hb : goHasSuffix b "/" = false) (hr : goHasSuffix r "/" = false) :
    isUnderOrEqual r b = true ↔ ProtectedBySpec r b := by
  unfold isUnderOrEqual ProtectedBySpec
  by_cases heq : r = b
  · simp [heq]
  · rw [if_neg heq, hb]
    simp only [Bool.false_eq_true, if_false]
    have hdata : (b ++ "/").data = b.data ++ ['/'] := rfl
    simp only [goHasPrefix, List.isPrefixOf_iff_prefix]
    constructor
    · intro h
      refine Or.inr ?_
      obtain ⟨t, ht⟩ := h
      rw [hdata] at ht
      refine ⟨t, ?_, ?_⟩
      · rintro rfl
        apply absurd hr
        simp only [Bool.not_eq_false, goHasSuffix]
        rw [List.isSuffixOf_iff_suffix]
        exact ⟨b.data, by simpa using ht⟩
      · rw [← ht]; simp
    · rintro (rfl | ⟨t, _, hd2⟩)
      · exact absurd rfl heq
      · exact ⟨t, by rw [hd2, hdata]; simp⟩

theorem validateResolved_isSome_iff (source sourcePath realPath : String) :
    ∀ blockedPaths : List String,
      (validateResolved blockedPaths source sourcePath realPath).isSome = true ↔
        ∃ b ∈ blockedPaths, isUnderOrEqual realPath b = true := by
  intro blockedPaths
  induction blockedPaths with
  | nil => simp [validateResolved]
  | cons b rest ih =>
    by_cases h : isUnderOrEqual realPath b = true
    · by_cases hne : realPath ≠ sourcePath
      · simp [validateResolved, h, hne]
      · simp [validateResolved, h, hne]
    · simp only [validateResolved, Bool.not_eq_true] at h ⊢
      rw [h]
      simp only [Bool.false_eq_true, if_false, ih, List.mem_cons]
      constructor
      · rintro ⟨x, hx, hxu⟩; exact ⟨x, Or.inr hx, hxu⟩
      · rintro ⟨x, hx | hx, hxu⟩
        · exact absurd (hx ▸ hxu) (by simp [h])
        · exact ⟨x, hx, hxu⟩

theorem validateResolved_msg (source sourcePath realPath : String)
    (hne : realPath ≠ sourcePath) :
    ∀ (blockedPaths : List String) (msg : String),
      validateResolved blockedPaths source sourcePath realPath = some msg →
        ∃ b ∈ blockedPaths,
          msg = "mount blocked: " ++ source ++ " resolves to protected path " ++ b := by
  intro blockedPaths
  induction blockedPaths with
  | nil => intro msg h; simp [validateResolved] at h
  | cons b rest ih =>
    intro msg h
    by_cases hu : isUnderOrEqual realPath b = true
    · simp only [validateResolved, hu, if_true, hne, if_pos, Option.some.injEq,
        ne_eq, not_false_eq_true] at h
      exact ⟨b, by simp, h.symm⟩
    · simp only [validateResolved, Bool.not_eq_true] at hu
      rw [validateResolved, hu] at h
      simp only [Bool.false_eq_true, if_false] at h
      obtain ⟨x, hx, hmsg⟩ := ih msg h
      exact ⟨x, by simp [hx], hmsg⟩

/-- **C3** — With every blocked prefix and the resolved source free of a
trailing separator (as `filepath.Clean`/`EvalSymlinks` outputs are),
`Validate`'s blocked-path check rejects a mount iff the resolved source
equals, or is a strict subpath of, some protected prefix; a sibling path
merely sharing a string prefix (`/home/user/.sshrc` against blocked
`/home/user/.ssh`) is not rejected; and whenever resolution changed the path,
any produced error is the "resolves to protected path" form. -/
theorem Validate_protected_iff (blockedPaths : List String)
    (source sourcePath realPath : String)
    (hb : ∀ b ∈ blockedPaths, goHasSuffix b "/" = false)
    (hr : goHasSuffix realPath "/" = false) :
    ((validateResolved blockedPaths source sourcePath realPath).isSome = true ↔
        ∃ b ∈ blockedPaths, ProtectedBySpec realPath b)
    ∧ (realPath ≠ sourcePath →
        ∀ msg, validateResolved blockedPaths source sourcePath realPath = some msg →
          ∃ b ∈ blockedPaths,
            msg = "mount blocked: " ++ source ++ " resolves to protected path " ++ b)
    ∧ isUnderOrEqual "/home/user/.sshrc" "/home/user/.ssh" = false
    ∧ validateResolved ["/home/user/.ssh"] "/home/user/.sshrc" "/home/user/.sshrc"
        "/home/user/.sshrc" = none := by
  refine ⟨?_, fun hne => validateResolved_msg source sourcePath realPath hne blockedPaths,
    by decide, by decide⟩
  rw [validateResolved_isSome_iff]
  constructor
  · rintro ⟨b, hbm, hu⟩
    exact ⟨b, hbm, (isUnderOrEqual_iff realPath b (hb b hbm) hr).mp hu⟩
  · rintro ⟨b, hbm, hp⟩
    exact ⟨b, hbm, (isUnderOrEqual_iff realPath b (hb b hbm) hr).mpr hp⟩

/-- Witness for `Validate_protected_iff`: the blocked prefix
`/home/user/.ssh` rejects the resolved path `/home/user/.ssh/id_rsa`. -/
theorem Validate_protected_iff_witness :
    (validateResolved ["/home/user/.ssh"] "/home/user/.ssh/id_rsa"
      "/home/user/.ssh/id_rsa" "/home/user/.ssh/id_rsa").isSome = true :=
  ((Validate_protected_iff ["/home/user/.ssh"] "/home/user/.ssh/id_rsa"
      "/home/user/.ssh/id_rsa" "/home/user/.ssh/id_rsa" (by decide) (by decide)).1).mpr
    ⟨"/home/user/.ssh", by decide, Or.inr ⟨"id_rsa".data, by decide, by decide⟩⟩

/-! ### `EscapeWriter` (internal/vm console client)

`EscapeWriter.Write` forwards bytes from stdin to the console socket while
recognizing the SSH-style escapes `~.`, `~~`, `~?` after a newline. Bytes are
modelled as `Nat` (`0x0a`/`0x0d` newline, `0x7e` tilde, `0x2e` dot,
`0x3f` question mark). -/

/-- The `(afterNewline, pendingTilde)` automaton state of `EscapeWriter`.
`NewEscapeWriter` starts it at `⟨true, false⟩`. -/
structure EscState where
  afterNewline : Bool
  pendingTilde : Bool
deriving DecidableEq, Repr

/-- Result of one `EscapeWriter.Write` call: the bytes forwarded to the
underlying writer, the automaton state afterwards, and whether `~.` closed
the detach channel (in which case the rest of the batch was discarded). -/
structure WriteRes where
  out : List Nat
  state : EscState
  detach : Bool
deriving DecidableEq, Repr

/-- `EscapeWriter.Write` from the console client, with an underlying writer
that never fails (the fallible variant is `escWriteFGo`). The `~?` help text
goes to stdout, not to the underlying writer, so it contributes no bytes to
`out`. -/
def escWrite (s : EscState) : List Nat → WriteRes
  | [] => ⟨[], s, false⟩
  | b :: rest =>
    if b == 10 || b == 13 then
      let r := escWrite ⟨true, false⟩ rest
      ⟨(if s.pendingTilde then [126] else []) ++ b :: r.out, r.state, r.detach⟩
    else if s.afterNewline && b == 126 then
      escWrite ⟨false, true⟩ rest
    else if s.pendingTilde then
      if b == 46 then ⟨[], ⟨s.afterNewline, false⟩, true⟩
      else
        let emitted : List Nat :=
          if b == 126 then [126] else if b == 63 then [] else [126, b]
        let r := escWrite ⟨false, false⟩ rest
        ⟨emitted ++ r.out, r.state, r.detach⟩
    else
      let r := escWrite ⟨false, false⟩ rest
      ⟨b :: r.out, r.state, r.detach⟩

/-- A sequence of `Write` calls (one per batch), as issued by the
`io.Copy(escapeWriter, stdin)` loop; after a detach the attach loop returns,
so no further batches are written. -/
def escWriteAll (s : EscState) : List (List Nat) → WriteRes
  | [] => ⟨[], s, false⟩
  | p :: ps =>
    let r := escWrite s p
    if r.detach then r
    else
      let r' := escWriteAll r.state ps
      ⟨r.out ++ r'.out, r'.state, r'.detach⟩

/-- The specification's strip function, written from the claim's words: the
input stream with exactly the recognized escape sequences removed — `~.`
consumed (and signalled), `~~` replaced by a single `~`, `~?` consumed, a
tilde pending at a newline flushed as a literal `~` — and no other byte
dropped, reordered or altered. -/
def removeEscapes (afterNL : Bool) : List Nat → List Nat
  | [] => []
  | b :: rest =>
    if afterNL && b == 126 then
      match rest with
      | [] => [126]
      | c :: rest' =>
        if c == 46 then removeEscapes false rest'
        else if c == 126 then 126 :: removeEscapes false rest'
        else if c == 63 then removeEscapes false rest'
        else if c == 10 || c == 13 then 126 :: c :: removeEscapes true rest'
        else 126 :: c :: removeEscapes false rest'
    else b :: removeEscapes (b == 10 || b == 13) rest

theorem escWrite_append (xs : List Nat) : ∀ (s : EscState) (ys : List Nat),
    escWrite s (xs ++ ys) =
      (let r := escWrite s xs
       if r.detach then r
       else
         let r' := escWrite r.state ys
         ⟨r.out ++ r'.out, r'.state, r'.detach⟩) := by
  induction xs with
  | nil => intro s ys; simp [escWrite]
  | cons b rest ih =>
    intro s ys
    simp only [List.cons_append, escWrite, List.append_eq]
    by_cases h1 : (b == 10 || b == 13) = true
    · simp only [h1, if_true]
      rw [ih]
      by_cases hd : (escWrite ⟨true, false⟩ rest).detach = true
      · simp [hd]
      · simp only [Bool.not_eq_true] at hd
        simp [hd, List.append_assoc]
    · simp only [h1, Bool.false_eq_true, if_false]
      by_cases h2 : (s.afterNewline && b == 126) = true
      · simp only [h2, if_true]
        rw [ih]
      · simp only [h2, Bool.false_eq_true, if_false]
        by_cases h3 : s.pendingTilde = true
        · simp only [h3, if_true]
          by_cases h4 : (b == 46) = true
          · simp [h4]
          · simp only [h4, Bool.false_eq_true, if_false]
            rw [ih]
            by_cases hd : (escWrite ⟨false, false⟩ rest).detach = true
            · simp [hd]
            · simp only [Bool.not_eq_true] at hd
              simp [hd, List.append_assoc]
        · simp only [h3, Bool.false_eq_true, if_false]
          rw [ih]
          by_cases hd : (escWrite ⟨false, false⟩ rest).detach = true
          · simp [hd]
          · simp only [Bool.not_eq_true] at hd
            simp [hd]

theorem escWriteAll_eq_flatten : ∀ (batches : List (List Nat)) (s : EscState),
    (escWrite s batches.flatten).detach = false →
    escWriteAll s batches = escWrite s batches.flatten := by
  intro batches
  induction batches with
  | nil => intro s _; simp [escWriteAll, escWrite]
  | cons p ps ih =>
    intro s hnd
    rw [List.flatten_cons] at hnd ⊢
    rw [escWrite_append] at hnd ⊢
    by_cases hd : (escWrite s p).detach = true
    · simp [hd] at hnd
    · simp only [Bool.not_eq_true] at hd
      simp only [hd, Bool.false_eq_true, if_false] at hnd ⊢
      simp only [escWriteAll, hd, Bool.false_eq_true, if_false]
      rw [ih (escWrite s p).state hnd]

theorem escWrite_eq_removeEscapes : ∀ (anl : Bool) (l : List Nat),
    (escWrite ⟨anl, false⟩ l).detach = false →
    (escWrite ⟨anl, false⟩ l).state.pendingTilde = false →
    (escWrite ⟨anl, false⟩ l).out = removeEscapes anl l := by
  intro anl l
  induction anl, l using removeEscapes.induct with
  | case1 anl => intro _ _; simp [escWrite, removeEscapes]
  | case2 anl c h =>
    intro _ hpt
    rw [Bool.and_eq_true] at h
    obtain ⟨hanl, hc⟩ := h
    rw [beq_iff_eq] at hc
    subst hc; subst hanl
    simp [escWrite] at hpt
  | case3 anl c h c1 rest' hc1 ih =>
    intro hnd hpt
    rw [Bool.and_eq_true] at h
    obtain ⟨hanl, hc⟩ := h
    rw [beq_iff_eq] at hc hc1
    subst hc; subst hc1; subst hanl
    simp [escWrite] at hnd
  | case4 anl c h c1 rest' hc46 hc1 ih =>
    intro hnd hpt
    rw [Bool.and_eq_true] at h
    obtain ⟨hanl, hc⟩ := h
    rw [beq_iff_eq] at hc hc1
    subst hc; subst hc1; subst hanl
    simp only [escWrite, removeEscapes] at hnd hpt ⊢
    simp at hnd hpt ⊢
    exact ih hnd hpt
  | case5 anl c h c1 rest' hc46 hc126 hc1 ih =>
    intro hnd hpt
    rw [Bool.and_eq_true] at h
    obtain ⟨hanl, hc⟩ := h
    rw [beq_iff_eq] at hc hc1
    subst hc; subst hc1; subst hanl
    simp only [escWrite, removeEscapes] at hnd hpt ⊢
    simp at hnd hpt ⊢
    exact ih hnd hpt
  | case6 anl c h c1 rest' hc46 hc126 hc63 hc1 ih =>
    intro hnd hpt
    rw [Bool.and_eq_true] at h
    obtain ⟨hanl, hc⟩ := h
    rw [beq_iff_eq] at hc
    subst hc; subst hanl
    simp only [escWrite, removeEscapes] at hnd hpt ⊢
    simp [hc1, hc46, hc126, hc63] at hnd hpt ⊢
    exact ih hnd hpt
  | case7 anl c h c1 rest' hc46 hc126 hc63 hc1 ih =>
    intro hnd hpt
    rw [Bool.and_eq_true] at h
    obtain ⟨hanl, hc⟩ := h
    rw [beq_iff_eq] at hc
    subst hc; subst hanl
    simp only [escWrite, removeEscapes] at hnd hpt ⊢
    simp [hc1, hc46, hc126, hc63] at hnd hpt ⊢
    exact ih hnd hpt
  | case8 anl c rest h ih =>
    intro hnd hpt
    rw [removeEscapes.eq_def]
    by_cases hb : (c == 10 || c == 13) = true
    · rw [hb] at ih
      simp only [escWrite] at hnd hpt ⊢
      simp [hb, h] at hnd hpt ⊢
      exact ih hnd hpt
    · rw [Bool.not_eq_true] at hb
      rw [hb] at ih
      simp only [escWrite] at hnd hpt ⊢
      simp [hb, h] at hnd hpt ⊢
      exact ih hnd hpt

/-- **C5 (counterexample)** — with the single batch `~.a` the writer signals
detach and forwards nothing, while the input with the recognized escape `~.`
removed still holds the byte `a`: the emitted stream is not the input minus
the recognized control sequences. -/
theorem escapeWriter_stream_counterexample :
    (escWriteAll ⟨true, false⟩ [[126, 46, 97]]).out ≠ removeEscapes true [126, 46, 97] ∧
    (escWriteAll ⟨true, false⟩ [[126, 46, 97]]).out = [] ∧
    removeEscapes true [126, 46, 97] = [97] := by
  decide

/-- **C5 (amended)** — across any batching of the input, as long as no `~.`
detach is triggered and the input does not end with a pending tilde, the byte
stream emitted to the underlying writer equals the input with exactly the
recognized escape sequences removed (`~~` to `~`, `~?` consumed, a tilde
pending at a newline flushed as a literal `~`); a `~.` detach additionally
discards the unprocessed remainder of the input. -/
theorem escapeWriter_stream (batches : List (List Nat))
    (hnd : (escWrite ⟨true, false⟩ batches.flatten).detach = false)
    (hpt : (escWrite ⟨true, false⟩ batches.flatten).state.pendingTilde = false) :
    (escWriteAll ⟨true, false⟩ batches).out = removeEscapes true batches.flatten := by
  rw [escWriteAll_eq_flatten batches ⟨true, false⟩ hnd]
  exact escWrite_eq_removeEscapes true batches.flatten hnd hpt

/-- Witness for `escapeWriter_stream`: the batches `"hi\n"`, `"~~x"` trigger
no detach and leave no pending tilde, and the emitted stream is
`"hi\n~x"` — the input minus the `~~` escape's first tilde. -/
theorem escapeWriter_stream_witness :
    (escWriteAll ⟨true, false⟩ [[104, 105, 10], [126, 126, 120]]).out =
      removeEscapes true [104, 105, 10, 126, 126, 120] :=
  escapeWriter_stream [[104, 105, 10], [126, 126, 120]] (by decide) (by decide)

/-! ### `EscapeWriter.Write` with a fallible underlying writer (for the
return-count property) -/

/-- Outcome of one `EscapeWriter.Write` call against writers that may fail:
the returned byte count `n`, whether an error was returned, the automaton
state, whether `~.` detached, and how many underlying write operations were
consumed from the failure oracle. -/
structure EscWriteOutcome where
  n : Nat
  err : Bool
  state : EscState
  detach : Bool
  calls : Nat
deriving DecidableEq, Repr

/-- `EscapeWriter.Write` from the console client with every underlying write
operation (to the socket writer or, for `~?`, to stdout) drawn from a
failure oracle: `fails k` tells whether the `k`-th operation returns an
error. `plen` is `len(p)` of the whole batch, which every `return` statement
of the Go function yields as `n`. -/
def escWriteFGo (plen : Nat) (fails : Nat → Bool) (k : Nat) (s : EscState) :
    List Nat → EscWriteOutcome
  | [] => ⟨plen, false, s, false, k⟩
  | b :: rest =>
    if b == 10 || b == 13 then
      if s.pendingTilde then
        if fails k then ⟨plen, true, ⟨s.afterNewline, true⟩, false, k + 1⟩
        else if fails (k + 1) then ⟨plen, true, ⟨s.afterNewline, false⟩, false, k + 2⟩
        else escWriteFGo plen fails (k + 2) ⟨true, false⟩ rest
      else
        if fails k then ⟨plen, true, s, false, k + 1⟩
        else escWriteFGo plen fails (k + 1) ⟨true, false⟩ rest
    else if s.afterNewline && b == 126 then
      escWriteFGo plen fails k ⟨false, true⟩ rest
    else if s.pendingTilde then
      if b == 46 then ⟨plen, false, ⟨s.afterNewline, false⟩, true, k⟩
      else
        if fails k then ⟨plen, true, ⟨s.afterNewline, false⟩, false, k + 1⟩
        else escWriteFGo plen fails (k + 1) ⟨false, false⟩ rest
    else
      if fails k then ⟨plen, true, s, false, k + 1⟩
      else escWriteFGo plen fails (k + 1) ⟨false, false⟩ rest

/-- One `Write(p)` call with failure oracle `fails`, starting at operation
index `k` in state `s`. -/
def escWriteF (fails : Nat → Bool) (k : Nat) (s : EscState) (p : List Nat) :
    EscWriteOutcome :=
  escWriteFGo p.length fails k s p

theorem escWriteFGo_n (p : List Nat) : ∀ (plen : Nat) (fails : Nat → Bool)
    (k : Nat) (s : EscState), (escWriteFGo plen fails k s p).n = plen := by
  induction p with
  | nil => intro plen fails k s; rfl
  | cons b rest ih =>
    intro plen fails k s
    rw [escWriteFGo.eq_def]
    by_cases h1 : (b == 10 || b == 13) = true
    · by_cases h2 : s.pendingTilde = true
      · by_cases hf : fails k = true
        · simp [h1, h2, hf]
        · by_cases hf2 : fails (k + 1) = true
          · simp [h1, h2, hf, hf2]
          · simp [h1, h2, hf, hf2, ih]
      · by_cases hf : fails k = true
        · simp [h1, h2, hf]
        · simp [h1, h2, hf, ih]
    · by_cases h2 : (s.afterNewline && b == 126) = true
      · simp [h1, h2, ih]
      · by_cases h3 : s.pendingTilde = true
        · by_cases h4 : (b == 46) = true
          · simp [h1, h2, h3, h4]
          · by_cases hf : fails k = true
            · simp [h1, h2, h3, h4, hf]
            · simp [h1, h2, h3, h4, hf, ih]
        · by_cases hf : fails k = true
          · simp [h1, h2, h3, hf]
          · simp [h1, h2, h3, hf, ih]

/-- **C10** — For every input batch `p`, every automaton state and every
behaviour of the underlying writers, `EscapeWriter.Write` returns
`n = len(p)`: when escape bytes are consumed without being forwarded, when a
`~.` detach discards the remainder of the batch, and when an underlying
write fails partway through (the error is returned but `n` is still
`len(p)`). -/
theorem escWriteF_returns_len (fails : Nat → Bool) (k : Nat) (s : EscState)
    (p : List Nat) : (escWriteF fails k s p).n = p.length :=
  escWriteFGo_n p p.length fails k s

/-! ### `parseOAuthRedirect` (internal/vm OAuth relay)

The function uses Go `net/url`. The URL machinery below is modelled from
Go's `net/url` package (scheme extraction, authority/port validation, query
parsing with percent-decoding), restricted to the URL shapes this program
handles; `parseOAuthRedirect` itself is translated from the source. -/

/-- Value of a hexadecimal digit, as in `net/url`'s `unhex`. -/
def hexVal (c : Char) : Option Nat :=
  if '0' ≤ c ∧ c ≤ '9' then some (c.toNat - 48)
  else if 'a' ≤ c ∧ c ≤ 'f' then some (c.toNat - 87)
  else if 'A' ≤ c ∧ c ≤ 'F' then some (c.toNat - 55)
  else none

/-- Model of `net/url` query unescaping: `%XX` decodes, `+` becomes space,
a malformed `%` escape is an error. -/
def queryUnescape : List Char → Option (List Char)
  | [] => some []
  | '%' :: a :: b :: rest => do
      let ha ← hexVal a
      let hb ← hexVal b
      let r ← queryUnescape rest
      pure (Char.ofNat (16 * ha + hb) :: r)
  | '%' :: _ => none
  | '+' :: rest => do
      let r ← queryUnescape rest
      pure (' ' :: r)
  | c :: rest => do
      let r ← queryUnescape rest
      pure (c :: r)

/-- Split a character list at every occurrence of `sep`. -/
def splitOnChar (sep : Char) : List Char → List (List Char)
  | [] => [[]]
  | c :: rest =>
    if c = sep then [] :: splitOnChar sep rest
    else
      match splitOnChar sep rest with
      | [] => [[c]]
      | h :: t => (c :: h) :: t

/-- Split at the first occurrence of `sep`: the part before it and, when the
separator occurs, the part after it. -/
def breakOn (sep : Char) : List Char → List Char × Option (List Char)
  | [] => ([], none)
  | c :: rest =>
    if c = sep then ([], some rest)
    else
      let r := breakOn sep rest
      (c :: r.1, r.2)

/-- Split at the last `:` (port separator), as `net/url`'s host/port split
does. -/
def lastColonSplit (l : List Char) : List Char × Option (List Char) :=
  match breakOn ':' l.reverse with
  | (_, none) => (l, none)
  | (rp, some rh) => (rh.reverse, some rp.reverse)

/-- Result of `net/url`'s scheme extraction. -/
inductive SchemeRes
  | noScheme
  | malformed
  | found (scheme rest : List Char)
deriving DecidableEq, Repr

/-- Model of `net/url.getScheme`: a scheme is a letter followed by
letters, digits, `+`, `-` or `.`, terminated by `:`; a leading `:` is the
"missing protocol scheme" error; anything else means no scheme. -/
def getSchemeGo (acc : List Char) : List Char → SchemeRes
  | [] => SchemeRes.noScheme
  | c :: rest =>
    if c = ':' then
      if acc = [] then SchemeRes.malformed else SchemeRes.found acc.reverse rest
    else if (if acc.isEmpty then c.isAlpha
             else c.isAlpha || c.isDigit || c = '+' || c = '-' || c = '.') then
      getSchemeGo (c :: acc) rest
    else SchemeRes.noScheme

/-- The parts of a parsed URL that `parseOAuthRedirect` reads. -/
structure GoURL where
  scheme : String
  host : String
  path : String
  rawQuery : String
deriving DecidableEq, Repr

/-- Model of `net/url.Parse` for the URL shapes this program handles:
fragment and query split off, scheme extracted (and lowercased), an
authority introduced by `//` parsed up to the next `/` with its port
(the part after the last `:`) required to be all digits. -/
def urlParse (rawURL : String) : Option GoURL :=
  let beforeFrag := (breakOn '#' rawURL.data).1
  let bq := breakOn '?' beforeFrag
  let rawQuery : List Char := match bq.2 with | none => [] | some q => q
  match getSchemeGo [] bq.1 with
  | SchemeRes.malformed => none
  | res =>
    let sr : List Char × List Char :=
      match res with
      | SchemeRes.found sch rest => (sch, rest)
      | _ => ([], bq.1)
    if ['/', '/'].isPrefixOf sr.2 then
      let afterSlashes := sr.2.drop 2
      let authority := afterSlashes.takeWhile (· ≠ '/')
      let path := afterSlashes.dropWhile (· ≠ '/')
      let portOk : Bool :=
        match lastColonSplit authority with
        | (_, none) => true
        | (_, some port) => port.all (·.isDigit)
      if portOk then
        some ⟨goToLower ⟨sr.1⟩, ⟨authority⟩, ⟨path⟩, ⟨rawQuery⟩⟩
      else none
    else
      some ⟨goToLower ⟨sr.1⟩, "", ⟨sr.2⟩, ⟨rawQuery⟩⟩

/-- Model of `url.Values.Get` after `ParseQuery`: first pair whose decoded
key matches; pairs with malformed escapes are skipped. -/
def queryGetGo (key : String) : List (List Char) → String
  | [] => ""
  | pair :: rest =>
    let kv := breakOn '=' pair
    let v : List Char := match kv.2 with | none => [] | some v => v
    match queryUnescape kv.1, queryUnescape v with
    | some dk, some dv => if dk = key.data then ⟨dv⟩ else queryGetGo key rest
    | _, _ => queryGetGo key rest

/-- Model of `url.URL.Hostname`: the host with any `:port` suffix removed. -/
def urlHostname (host : String) : String :=
  ⟨(lastColonSplit host.data).1⟩

/-- Model of `url.URL.Port`: the digits after the last `:`, or empty. -/
def urlPort (host : String) : String :=
  match (lastColonSplit host.data).2 with
  | none => ""
  | some p => ⟨p⟩

/-- All-digit decimal parse: `strconv.Atoi` restricted to the digit-only
strings `Port()` produces. -/
def digitsToNatGo (acc : Nat) : List Char → Option Nat
  | [] => some acc
  | c :: rest =>
    if c.isDigit then digitsToNatGo (acc * 10 + (c.toNat - 48)) rest else none

/-- `strconv.Atoi` on a port string (`none` is the error case). -/
def goAtoi (s : String) : Option Nat :=
  if s.data.isEmpty then none else digitsToNatGo 0 s.data

/-- `parseOAuthRedirect` from the internal/vm OAuth relay source. -/
def parseOAuthRedirect (rawURL : String) : String × Bool :=
  match urlParse rawURL with
  | none => ("", false)
  | some u =>
    let redirectURI := queryGetGo "redirect_uri" (splitOnChar '&' u.rawQuery.data)
    if redirectURI = "" then ("", false)
    else
      match urlParse redirectURI with
      | none => ("", false)
      | some r =>
        if r.scheme ≠ "http" then ("", false)
        else
          let host := urlHostname r.host
          let port := urlPort r.host
          if host ≠ "localhost" ∨ port = "" then ("", false)
          else
            match goAtoi port with
            | none => ("", false)
            | some n =>
              if n < 1024 ∨ 65535 < n then ("", false) else (port, true)

/-- **C6** — `parseOAuthRedirect` returns the example port `38449` with
`ok = true`; it accepts the localhost redirect ports `1024` and `65535` and
rejects `1023`, `65536`, `0` and a non-numeric port, returning `ok = false`
for those. -/
theorem parseOAuthRedirect_ports :
    parseOAuthRedirect
      "https://x/auth?redirect_uri=http%3A%2F%2Flocalhost%3A38449%2Fcb" = ("38449", true) ∧
    parseOAuthRedirect
      "https://x/auth?redirect_uri=http%3A%2F%2Flocalhost%3A1024%2Fcb" = ("1024", true) ∧
    parseOAuthRedirect
      "https://x/auth?redirect_uri=http%3A%2F%2Flocalhost%3A65535%2Fcb" = ("65535", true) ∧
    parseOAuthRedirect
      "https://x/auth?redirect_uri=http%3A%2F%2Flocalhost%3A1023%2Fcb" = ("", false) ∧
    parseOAuthRedirect
      "https://x/auth?redirect_uri=http%3A%2F%2Flocalhost%3A65536%2Fcb" = ("", false) ∧
    parseOAuthRedirect
      "https://x/auth?redirect_uri=http%3A%2F%2Flocalhost%3A0%2Fcb" = ("", false) ∧
    parseOAuthRedirect
      "https://x/auth?redirect_uri=http%3A%2F%2Flocalhost%3Aabc%2Fcb" = ("", false) := by
  decide

/-! ### `internal/session`: the Session record and its JSON document

`Store.Save` marshals a `Session` with `encoding/json` (struct tags as in
types.go, three `omitempty` fields) and `Store.Load` unmarshals it. The JSON
document is modelled as a value tree; `time.Time` is modelled by its unix
instant as a JSON number (its RFC3339 text encoding is an injective stdlib
encoding of that instant). `json.Unmarshal` leaves a missing or null field
at the Go zero value and fails on a type mismatch. -/

/-- JSON document values. -/
inductive JValue
  | jnull
  | jbool (b : Bool)
  | jnum (n : Int)
  | jstr (s : String)
  | jarr (xs : List JValue)
  | jobj (fields : List (String × JValue))

/-- `VMMount` struct from types.go with its JSON field names. -/
structure VMMount where
  Source : String
  Target : String
  ReadOnly : Bool
  Tag : String
deriving DecidableEq, Repr

/-- `Session` struct from types.go. `StartedAt` is the `time.Time` instant;
`Timeout`, `StoppedAt` and `ExitReason` carry `omitempty` (for the pointer
`*time.Time`, absence is `none`). -/
structure Session where
  ID : String
  ProjectDir : String
  Mounts : List VMMount
  Network : List String
  CPUs : Int
  Memory : String
  Status : String
  StartedAt : Int
  ClaudeMode : Bool
  Timeout : String
  StoppedAt : Option Int
  ExitReason : String
deriving DecidableEq, Repr

/-- `encoding/json` marshalling of a `VMMount`. -/
def marshalMount (m : VMMount) : JValue :=
  .jobj [("source", .jstr m.Source), ("target", .jstr m.Target),
         ("read_only", .jbool m.ReadOnly), ("tag", .jstr m.Tag)]

/-- The fields of the JSON object `encoding/json` produces for a `Session`:
struct order, with each `omitempty` field present only when non-zero. -/
def sessionFields (s : Session) : List (String × JValue) :=
  [("id", .jstr s.ID),
   ("project_dir", .jstr s.ProjectDir),
   ("mounts", .jarr (s.Mounts.map marshalMount)),
   ("network", .jarr (s.Network.map JValue.jstr)),
   ("cpus", .jnum s.CPUs),
   ("memory", .jstr s.Memory),
   ("status", .jstr s.Status),
   ("started_at", .jnum s.StartedAt),
   ("claude_mode", .jbool s.ClaudeMode)]
  ++ (if s.Timeout = "" then [] else [("timeout", .jstr s.Timeout)])
  ++ (match s.StoppedAt with
      | none => []
      | some t => [("stopped_at", .jnum t)])
  ++ (if s.ExitReason = "" then [] else [("exit_reason", .jstr s.ExitReason)])

/-- `encoding/json` marshalling of a `Session` (`Store.Save`). -/
def marshalSession (s : Session) : JValue :=
  .jobj (sessionFields s)

/-- Unmarshal a string field: missing or null yields the zero value. -/
def getStr (fields : List (String × JValue)) (key : String) : Option String :=
  match fields.lookup key with
  | none => some ""
  | some .jnull => some ""
  | some (.jstr v) => some v
  | some _ => none

/-- Unmarshal a numeric field: missing or null yields the zero value. -/
def getNum (fields : List (String × JValue)) (key : String) : Option Int :=
  match fields.lookup key with
  | none => some 0
  | some .jnull => some 0
  | some (.jnum v) => some v
  | some _ => none

/-- Unmarshal a boolean field: missing or null yields the zero value. -/
def getBool (fields : List (String × JValue)) (key : String) : Option Bool :=
  match fields.lookup key with
  | none => some false
  | some .jnull => some false
  | some (.jbool v) => some v
  | some _ => none

/-- Unmarshal an optional (`*time.Time`) field: missing or null is `none`. -/
def getOptNum (fields : List (String × JValue)) (key : String) :
    Option (Option Int) :=
  match fields.lookup key with
  | none => some none
  | some .jnull => some none
  | some (.jnum v) => some (some v)
  | some _ => none

/-- A JSON string element of an array. -/
def jstrOf : JValue → Option String
  | .jstr v => some v
  | _ => none

/-- Unmarshal a `[]string` field. -/
def getStrList (fields : List (String × JValue)) (key : String) :
    Option (List String) :=
  match fields.lookup key with
  | none => some []
  | some .jnull => some []
  | some (.jarr xs) => xs.mapM jstrOf
  | some _ => none

/-- `encoding/json` unmarshalling of a `VMMount`. -/
def unmarshalMount (v : JValue) : Option VMMount :=
  match v with
  | .jobj f => do
      let src ← getStr f "source"
      let tgt ← getStr f "target"
      let ro ← getBool f "read_only"
      let tag ← getStr f "tag"
      pure ⟨src, tgt, ro, tag⟩
  | _ => none

/-- Unmarshal a `[]VMMount` field. -/
def getMounts (fields : List (String × JValue)) (key : String) :
    Option (List VMMount) :=
  match fields.lookup key with
  | none => some []
  | some .jnull => some []
  | some (.jarr xs) => xs.mapM unmarshalMount
  | some _ => none

/-- `encoding/json` unmarshalling of a `Session` (`Store.Load`). -/
def unmarshalSession (v : JValue) : Option Session :=
  match v with
  | .jobj f => do
      let id ← getStr f "id"
      let projectDir ← getStr f "project_dir"
      let mounts ← getMounts f "mounts"
      let network ← getStrList f "network"
      let cpus ← getNum f "cpus"
      let memory ← getStr f "memory"
      let status ← getStr f "status"
      let startedAt ← getNum f "started_at"
      let claudeMode ← getBool f "claude_mode"
      let timeout ← getStr f "timeout"
      let stoppedAt ← getOptNum f "stopped_at"
      let exitReason ← getStr f "exit_reason"
      pure ⟨id, projectDir, mounts, network, cpus, memory, status, startedAt,
            claudeMode, timeout, stoppedAt, exitReason⟩
  | _ => none

theorem unmarshalMount_marshalMount (m : VMMount) :
    unmarshalMount (marshalMount m) = some m := by
  cases m
  simp [marshalMount, unmarshalMount, getStr, getBool, List.lookup]

theorem mapM_unmarshalMount (ms : List VMMount) : ∀ acc : List VMMount,
    List.mapM.loop unmarshalMount (ms.map marshalMount) acc =
      some (acc.reverse ++ ms) := by
  induction ms with
  | nil => intro acc; simp [List.mapM.loop]
  | cons m rest ih =>
    intro acc
    simp [List.mapM.loop, unmarshalMount_marshalMount, ih]

theorem mapM_jstrOf (ns : List String) : ∀ acc : List String,
    List.mapM.loop jstrOf (ns.map JValue.jstr) acc = some (acc.reverse ++ ns) := by
  induction ns with
  | nil => intro acc; simp [List.mapM.loop]
  | cons n rest ih =>
    intro acc
    simp [List.mapM.loop, jstrOf, ih]

/-- **C7** — Marshalling a `Session` to its JSON document and unmarshalling
it back is the identity on every field, and each optional field
(`timeout`, `stopped_at`, `exit_reason`) that is zero-valued is absent from
the document (and, being absent, unmarshals back to its zero value). -/
theorem Session_json_roundtrip (s : Session) :
    unmarshalSession (marshalSession s) = some s
    ∧ (s.Timeout = "" → (sessionFields s).lookup "timeout" = none)
    ∧ (s.StoppedAt = none → (sessionFields s).lookup "stopped_at" = none)
    ∧ (s.ExitReason = "" → (sessionFields s).lookup "exit_reason" = none) := by
  obtain ⟨id, projectDir, mounts, network, cpus, memory, status, startedAt,
    claudeMode, timeout, stoppedAt, exitReason⟩ := s
  by_cases hT : timeout = "" <;> cases stoppedAt <;> by_cases hE : exitReason = "" <;>
    simp [marshalSession, sessionFields, unmarshalSession, getStr, getNum,
      getBool, getOptNum, getStrList, getMounts, List.lookup, hT, hE,
      mapM_unmarshalMount, mapM_jstrOf]

/-- Witness for `Session_json_roundtrip` at a concrete session with all
optional fields zero-valued: the round trip is the identity and the three
optional keys are absent from the document. -/
theorem Session_json_roundtrip_witness :
    unmarshalSession (marshalSession
        ⟨"abcd1234", "/w", [⟨"/w", "/w", true, "faize-bootstrap"⟩], ["npm"],
         4, "4GB", "running", 1700000000, true, "", none, ""⟩) =
      some ⟨"abcd1234", "/w", [⟨"/w", "/w", true, "faize-bootstrap"⟩], ["npm"],
         4, "4GB", "running", 1700000000, true, "", none, ""⟩
    ∧ (sessionFields
        ⟨"abcd1234", "/w", [⟨"/w", "/w", true, "faize-bootstrap"⟩], ["npm"],
         4, "4GB", "running", 1700000000, true, "", none, ""⟩).lookup "timeout" = none
    ∧ (sessionFields
        ⟨"abcd1234", "/w", [⟨"/w", "/w", true, "faize-bootstrap"⟩], ["npm"],
         4, "4GB", "running", 1700000000, true, "", none, ""⟩).lookup "stopped_at" = none
    ∧ (sessionFields
        ⟨"abcd1234", "/w", [⟨"/w", "/w", true, "faize-bootstrap"⟩], ["npm"],
         4, "4GB", "running", 1700000000, true, "", none, ""⟩).lookup "exit_reason" = none := by
  have h := Session_json_roundtrip
    ⟨"abcd1234", "/w", [⟨"/w", "/w", true, "faize-bootstrap"⟩], ["npm"],
     4, "4GB", "running", 1700000000, true, "", none, ""⟩
  exact ⟨h.1, h.2.1 rfl, h.2.2.1 rfl, h.2.2.2 rfl⟩

/-! ### `GenerateClaudeInitScript` (internal/guest, part of the init-script
generator)

The Go function builds the guest init script with a `strings.Builder`; the
embedding returns the ordered list of the chunks the builder receives (the
script text is their concatenation), so that theorems can speak about the
emitted command lines and their order. -/

/-- `strings.ReplaceAll` restricted to a single-character pattern, the only
form the generator uses. -/
def replaceAllChar (l : List Char) (old : Char) (new : List Char) : List Char :=
  l.flatMap fun c => if c = old then new else [c]

/-- `shellQuote` from the generator source: wrap in single quotes, escaping
embedded single quotes. -/
def shellQuote (s : String) : String :=
  "'" ++ (⟨replaceAllChar s.data (Char.ofNat 39) "'\\''".data⟩ : String) ++ "'"

/-- The chunks of the VirtioFS mount loop of `GenerateClaudeInitScript`. -/
def mountChunks (mounts : List VMMount) : List String :=
  mounts.enum.flatMap fun im =>
    let tag := if im.2.Tag = "" then "mount" ++ toString im.1 else im.2.Tag
    let opts := if im.2.ReadOnly then "ro" else "rw"
    ["mkdir -p " ++ shellQuote im.2.Target ++ "\n",
     "mount -t virtiofs " ++ shellQuote tag ++ " " ++ shellQuote im.2.Target ++
       " -o " ++ opts ++ "\n"]

/-- The chunks the wildcard loop of `GenerateClaudeInitScript` emits for one
wildcard pattern. -/
def wildcardChunks (wildcard : String) : List String :=
  let baseDomain := ExtractBaseDomain wildcard
  ["# Wildcard: " ++ wildcard ++ "\n",
   "[ \"$FAIZE_DEBUG\" = \"1\" ] && echo 'Adding SNI rules for " ++ wildcard ++ "'\n",
   "iptables -A OUTPUT -p tcp --dport 443 -m string --string " ++
     shellQuote ("." ++ baseDomain) ++
     " --algo bm -j ACCEPT 2>/dev/null || echo 'Warning: iptables string module not available for " ++
     wildcard ++ "'\n",
   "iptables -A OUTPUT -p tcp --dport 443 -m string --string " ++
     shellQuote baseDomain ++ " --algo bm -j ACCEPT 2>/dev/null || true\n",
   "# Fallback: resolve base domain IPs\n",
   "nslookup " ++ shellQuote baseDomain ++
     " 2>/dev/null | awk 'NR>2 && /^Address:/ \x7bprint $2\x7d' > /tmp/wildcard_ips_$$ || true\n"]
  ++ ["while read ip; do\n",
      "  if [ -n \"$ip\" ] && ! echo \"$ip\" | grep -q ':'; then\n"]
  ++ ["    [ \"$FAIZE_DEBUG\" = \"1\" ] && echo \"  Allowing $ip (" ++ baseDomain ++ " base)\"\n"]
  ++ ["    iptables -A OUTPUT -d \"$ip\" -j ACCEPT 2>/dev/null || true\n",
      "  fi\n",
      "done < /tmp/wildcard_ips_$$\n",
      "rm -f /tmp/wildcard_ips_$$\n\n"]

/-- The network-policy section of `GenerateClaudeInitScript` (block-all, or
domain allowlist with optional wildcards, or nothing). -/
def netPolicyChunks (policy : Option Policy) : List String :=
  match policy with
  | none => []
  | some p =>
    if !p.AllowAll then
      if p.Blocked then
        ["# === Network Policy: BLOCKED ===\n",
         "echo 'Applying network policy: blocked'\n",
         "iptables -P OUTPUT DROP\n",
         "iptables -A OUTPUT -m state --state ESTABLISHED,RELATED -j ACCEPT\n",
         "iptables -A OUTPUT -o lo -j ACCEPT\n",
         "# Log denied connections\n",
         "iptables -A OUTPUT -j LOG --log-prefix \"FAIZE_DENY: \" --log-level 4 -m limit --limit 5/sec 2>/dev/null || echo 'Warning: network logging unavailable (missing xt_LOG kernel module)'\n",
         "echo 'Network blocked (loopback only)'\n\n"]
      else if p.Domains.length > 0 || p.Wildcards.length > 0 then
        ["# === Network Policy: Domain Allowlist ===\n",
         "[ \"$FAIZE_DEBUG\" = \"1\" ] && echo 'Applying network policy: domain allowlist'\n\n"]
        ++ ["# DNS goes through local dnsmasq → 8.8.8.8/1.1.1.1 (allowed by iptables)\n\n",
            "# Default: drop all outbound except established connections\n",
            "iptables -P OUTPUT DROP\n",
            "iptables -A OUTPUT -m state --state ESTABLISHED,RELATED -j ACCEPT\n",
            "iptables -A OUTPUT -o lo -j ACCEPT\n\n",
            "# Log all new outbound connections (non-terminating)\n",
            "iptables -A OUTPUT -m state --state NEW -j LOG --log-prefix \"FAIZE_NET: \" --log-level 4 -m limit --limit 10/sec 2>/dev/null || echo 'Warning: network logging unavailable (missing xt_LOG kernel module)'\n\n",
            "# Allow DNS queries only to known resolvers\n",
            "iptables -A OUTPUT -p udp -d 8.8.8.8 --dport 53 -j ACCEPT\n",
            "iptables -A OUTPUT -p udp -d 1.1.1.1 --dport 53 -j ACCEPT\n",
            "iptables -A OUTPUT -p tcp -d 8.8.8.8 --dport 53 -j ACCEPT\n",
            "iptables -A OUTPUT -p tcp -d 1.1.1.1 --dport 53 -j ACCEPT\n\n"]
        ++ (if p.Domains.length > 0 then
              ["# Resolve and allow specific domains\n"]
              ++ ["ALLOWED_DOMAINS=" ++ shellQuote (goJoin p.Domains " ") ++ "\n"]
              ++ ["\n",
                  "# FAIZE_DEBUG already set at top of script\n",
                  "for domain in $ALLOWED_DOMAINS; do\n",
                  "  [ \"$FAIZE_DEBUG\" = \"1\" ] && echo \"Resolving $domain...\"\n",
                  "  # Use temp file to avoid subshell issues with pipe\n",
                  "  nslookup \"$domain\" 2>/dev/null | awk 'NR>2 && /^Address:/ \x7bprint $2\x7d' > /tmp/ips_$$ || true\n",
                  "  while read ip; do\n",
                  "    # Skip IPv6 addresses (kernel has IPv6 disabled)\n",
                  "    if [ -n \"$ip\" ] && ! echo \"$ip\" | grep -q ':'; then\n",
                  "      [ \"$FAIZE_DEBUG\" = \"1\" ] && echo \"  Allowing $ip ($domain)\"\n",
                  "      iptables -A OUTPUT -d \"$ip\" -j ACCEPT 2>/dev/null || echo \"  Failed to add rule for $ip\"\n",
                  "    fi\n",
                  "  done < /tmp/ips_$$\n",
                  "  rm -f /tmp/ips_$$\n",
                  "done\n\n"]
            else [])
        ++ (if p.Wildcards.length > 0 then
              ["# === Wildcard Domains (SNI matching) ===\n",
               "[ \"$FAIZE_DEBUG\" = \"1\" ] && echo 'Applying wildcard domain rules...'\n\n"]
              ++ p.Wildcards.flatMap wildcardChunks
            else [])
        ++ ["# Show applied rules (debug only)\n",
            "if [ \"$FAIZE_DEBUG\" = \"1\" ]; then\n",
            "  echo '=== iptables OUTPUT rules ==='\n",
            "  iptables -L OUTPUT -n 2>/dev/null | head -20 || echo 'Failed to list iptables rules'\n",
            "fi\n\n",
            "# Log denied connections (catch-all before policy DROP)\n",
            "iptables -A OUTPUT -j LOG --log-prefix \"FAIZE_DENY: \" --log-level 4 -m limit --limit 5/sec 2>/dev/null || echo 'Warning: network logging unavailable (missing xt_LOG kernel module)'\n\n",
            "[ \"$FAIZE_DEBUG\" = \"1\" ] && echo 'Network policy applied'\n\n"]
      else []
    else []

/-- `GenerateClaudeInitScript` from the generator source, as the ordered
list of builder chunks (the script is their concatenation). `extraDeps` is
a parameter of the Go function that its body does not use. -/
def generateClaudeInitScript (mounts : List VMMount) (projectDir : String)
    (policy : Option Policy) (persistCredentials : Bool)
    (extraDeps : List String) : List String :=
  let restricted : Bool := match policy with | none => false | some p => !p.AllowAll
  let safeDir := if projectDir = "" then "/workspace" else projectDir
  let vmWorkspace := if projectDir = "" then "/workspace" else projectDir
  ["#!/bin/sh\n",
   "# Faize Claude mode init script (non-root)\n",
   "set -e\n\n"]
  ++ ["# Debug mode detection\n",
      "FAIZE_DEBUG=0\n",
      "[ -f /mnt/bootstrap/debug ] && FAIZE_DEBUG=1\n\n"]
  ++ ["# Signal handler for graceful shutdown\n",
      "cleanup() \x7b\n",
      "  # Disable exit-on-error — cleanup must always run to completion\n",
      "  set +e\n",
      "  echo 'Shutting down...'\n",
      "  # Kill resize watcher if running\n",
      "  [ -n \"$RESIZE_WATCHER_PID\" ] && kill $RESIZE_WATCHER_PID 2>/dev/null || true\n",
      "  # Kill network log collector if running\n",
      "  [ -n \"$NETLOG_PID\" ] && kill $NETLOG_PID 2>/dev/null || true\n",
      "  # Kill dnsmasq if running\n",
      "  killall dnsmasq 2>/dev/null || true\n",
      "  # Kill child processes gracefully\n",
      "  kill -TERM $(jobs -p) 2>/dev/null || true\n",
      "  wait 2>/dev/null || true\n"]
  ++ (if persistCredentials then
        ["  # Persist credential files to host\n",
         "  if [ -d /mnt/host-credentials ]; then\n",
         "    [ -s /home/claude/.claude/.credentials.json ] && cp /home/claude/.claude/.credentials.json /mnt/host-credentials/.credentials.json\n",
         "    [ -s /home/claude/.claude.json ] && cp /home/claude/.claude.json /mnt/host-credentials/claude.json\n",
         "    sync\n",
         "  fi\n"]
      else [])
  ++ ["  # Record files modified during session (rootfs overlay changes)\n",
      "  \x7b\n",
      "    find / -newer /mnt/bootstrap/init.sh \\\n",
      "      -not -path '/proc/*' \\\n",
      "      -not -path '/sys/*' \\\n",
      "      -not -path '/dev/*' \\\n",
      "      -not -path '/mnt/*' \\\n",
      "      -not -path '/tmp/*' \\\n",
      "      -not -path '/run/*' \\\n",
      "      2>/dev/null || true\n",
      "  \x7d > /mnt/bootstrap/guest-changes.txt 2>/dev/null\n",
      "  # Sync filesystems\n",
      "  sync\n",
      "  # Power off\n",
      "  poweroff -f\n",
      "\x7d\n\n",
      "trap cleanup TERM INT\n\n"]
  ++ ["# Mount VirtioFS shares\n"]
  ++ mountChunks mounts
  ++ ["\n"]
  ++ ["# Mount devpts for PTY support\n",
      "mkdir -p /dev/pts\n",
      "mount -t devpts devpts /dev/pts -o gid=5,mode=620\n\n"]
  ++ ["# Set system time from host\n",
      "if [ -f /mnt/bootstrap/hosttime ]; then\n",
      "  HOSTTIME=$(cat /mnt/bootstrap/hosttime)\n",
      "  if date -s \"@$HOSTTIME\" >/dev/null 2>&1; then\n",
      "    [ \"$FAIZE_DEBUG\" = \"1\" ] && echo \"Clock synced from host\"\n",
      "  else\n",
      "    echo \"Clock sync failed\"\n",
      "  fi\n",
      "fi\n\n"]
  ++ ["# Set terminal size from host\n",
      "if [ -f /mnt/bootstrap/termsize ]; then\n",
      "  TERMSIZE=$(cat /mnt/bootstrap/termsize 2>/dev/null) || true\n",
      "  COLS=$(echo $TERMSIZE | cut -d' ' -f1)\n",
      "  ROWS=$(echo $TERMSIZE | cut -d' ' -f2)\n",
      "  if [ -n \"$COLS\" ] && [ -n \"$ROWS\" ]; then\n",
      "    stty cols $COLS rows $ROWS 2>/dev/null || true\n",
      "    [ \"$FAIZE_DEBUG\" = \"1\" ] && echo \"Terminal size: $\x7bCOLS\x7dx$\x7bROWS\x7d\"\n",
      "  fi\n",
      "fi\n\n"]
  ++ ["# Configure network\n",
      "[ \"$FAIZE_DEBUG\" = \"1\" ] && echo 'Setting up network...'\n"]
  ++ ["ifconfig lo 127.0.0.1 up\n"]
  ++ ["IFACE=$(ls /sys/class/net | grep -v lo | head -1)\n",
      "if [ -n \"$IFACE\" ]; then\n",
      "  [ \"$FAIZE_DEBUG\" = \"1\" ] && echo \"Found interface: $IFACE\"\n",
      "  ifconfig $IFACE up\n",
      "  \n",
      "  # Run DHCP client (busybox udhcpc)\n",
      "  [ \"$FAIZE_DEBUG\" = \"1\" ] && echo 'Running DHCP...'\n",
      "  if udhcpc -i $IFACE -n -q -t 10 2>/dev/null; then\n",
      "    [ \"$FAIZE_DEBUG\" = \"1\" ] && echo 'DHCP successful'\n",
      "  else\n",
      "    echo 'DHCP failed'\n",
      "  fi\n",
      "  \n",
      "  # Show assigned IP\n",
      "  if [ \"$FAIZE_DEBUG\" = \"1\" ]; then\n",
      "    ifconfig $IFACE | grep 'inet addr' || ifconfig $IFACE | grep 'inet ' || true\n",
      "  fi\n",
      "fi\n\n"]
  ++ (if restricted then
        ["# Configure dnsmasq as logging DNS forwarder\n",
         "cat > /etc/dnsmasq.conf << 'DNSMASQ_EOF'\n",
         "listen-address=127.0.0.1\n",
         "port=53\n",
         "no-resolv\n",
         "server=8.8.8.8\n",
         "server=1.1.1.1\n",
         "log-queries\n",
         "log-facility=/mnt/bootstrap/dns.log\n",
         "cache-size=200\n",
         "pid-file=\n",
         "DNSMASQ_EOF\n\n",
         "# Start dnsmasq (daemonizes by default)\n",
         "dnsmasq\n\n",
         "# Point DNS at local dnsmasq\n",
         "echo 'nameserver 127.0.0.1' > /etc/resolv.conf\n\n"]
      else
        ["# Ensure DNS configuration (only inject public DNS if DHCP didn't provide any)\n",
         "if ! grep -q nameserver /etc/resolv.conf 2>/dev/null; then\n",
         "  echo 'nameserver 8.8.8.8' > /etc/resolv.conf\n",
         "  echo 'nameserver 1.1.1.1' >> /etc/resolv.conf\n",
         "fi\n\n"])
  ++ ["# Brief wait for network/DNS to stabilize after DHCP\n",
      "sleep 2\n\n",
      "# Test network connectivity (with retries)\n",
      "[ \"$FAIZE_DEBUG\" = \"1\" ] && echo 'Testing connectivity...'\n",
      "if wget -q --spider --timeout=3 https://api.anthropic.com 2>/dev/null || \\\n",
      "   \x7b sleep 1 && wget -q --spider --timeout=3 https://api.anthropic.com 2>/dev/null; \x7d || \\\n",
      "   \x7b sleep 2 && wget -q --spider --timeout=3 https://api.anthropic.com 2>/dev/null; \x7d; then\n",
      "  [ \"$FAIZE_DEBUG\" = \"1\" ] && echo 'Network OK'\n",
      "else\n",
      "  echo 'Network check failed (may still work)'\n",
      "fi\n\n"]
  ++ netPolicyChunks policy
  ++ (if restricted then
        ["# Background network log collector\n",
         "(\n",
         "  while true; do\n",
         "    dmesg -c 2>/dev/null | grep 'FAIZE_' >> /mnt/bootstrap/network.log 2>/dev/null\n",
         "    sleep 2\n",
         "  done\n",
         ") &\n",
         "NETLOG_PID=$!\n\n"]
      else [])
  ++ ["# Fix ownership for claude user\n",
      "chown -R claude:claude /home/claude 2>/dev/null || true\n",
      "chown -R claude:claude /opt/toolchain 2>/dev/null || true\n"]
  ++ (if projectDir ≠ "" then
        ["chown -R claude:claude " ++ shellQuote projectDir ++ " 2>/dev/null || true\n"]
      else [])
  ++ ["\n"]
  ++ ["git config --system --add safe.directory " ++ shellQuote safeDir ++ "\n\n"]
  ++ ["# Install clipboard bridge shims\n"]
  ++ ["cat > /usr/local/bin/xclip << 'XCLIP_EOF'\n",
      "#!/bin/sh\n",
      "CLIP_DIR=\"/mnt/bootstrap/clipboard\"\n",
      "# Parse arguments\n",
      "OUTPUT_MODE=0\n",
      "TARGET_TYPE=\"\"\n",
      "SELECTION=\"\"\n",
      "while [ $# -gt 0 ]; do\n",
      "  case \"$1\" in\n",
      "    -o|-out) OUTPUT_MODE=1 ;;\n",
      "    -t) shift; TARGET_TYPE=\"$1\" ;;\n",
      "    -selection) shift; SELECTION=\"$1\" ;;\n",
      "    -i|-in) ;;\n",
      "    *) ;;\n",
      "  esac\n",
      "  shift\n",
      "done\n",
      "if [ \"$OUTPUT_MODE\" = \"1\" ]; then\n",
      "  # Output mode: read from VirtioFS\n",
      "  if [ \"$TARGET_TYPE\" = \"TARGETS\" ]; then\n",
      "    # Report available clipboard types\n",
      "    [ -f \"$CLIP_DIR/clipboard-image\" ] && printf 'image/png\\n'\n",
      "    [ -f \"$CLIP_DIR/clipboard-text\" ] && printf 'UTF8_STRING\\ntext/plain\\n'\n",
      "  elif [ \"$TARGET_TYPE\" = \"image/png\" ] && [ -f \"$CLIP_DIR/clipboard-image\" ]; then\n",
      "    cat \"$CLIP_DIR/clipboard-image\"\n",
      "  elif [ -f \"$CLIP_DIR/clipboard-text\" ]; then\n",
      "    cat \"$CLIP_DIR/clipboard-text\"\n",
      "  fi\n",
      "else\n",
      "  # Input mode: write stdin to VirtioFS\n",
      "  mkdir -p \"$CLIP_DIR\"\n",
      "  cat > \"$CLIP_DIR/clipboard-text\"\n",
      "fi\n",
      "XCLIP_EOF\n",
      "chmod +x /usr/local/bin/xclip\n\n"]
  ++ ["cat > /usr/local/bin/xsel << 'XSEL_EOF'\n",
      "#!/bin/sh\n",
      "CLIP_DIR=\"/mnt/bootstrap/clipboard\"\n",
      "# Parse arguments\n",
      "OUTPUT_MODE=0\n",
      "while [ $# -gt 0 ]; do\n",
      "  case \"$1\" in\n",
      "    -o|--output) OUTPUT_MODE=1 ;;\n",
      "    -i|--input) ;;\n",
      "    -b|--clipboard) ;;\n",
      "    *) ;;\n",
      "  esac\n",
      "  shift\n",
      "done\n",
      "if [ \"$OUTPUT_MODE\" = \"1\" ]; then\n",
      "  if [ -f \"$CLIP_DIR/clipboard-text\" ]; then\n",
      "    cat \"$CLIP_DIR/clipboard-text\"\n",
      "  fi\n",
      "else\n",
      "  mkdir -p \"$CLIP_DIR\"\n",
      "  cat > \"$CLIP_DIR/clipboard-text\"\n",
      "fi\n",
      "XSEL_EOF\n",
      "chmod +x /usr/local/bin/xsel\n\n"]
  ++ ["# Install browser-open shim (xdg-open)\n",
      "cat > /usr/local/bin/xdg-open << 'XDGOPEN_EOF'\n",
      "#!/bin/sh\n",
      "# Signals the host to open a URL in the default browser.\n",
      "# Writes the URL to a VirtioFS file; the host polls and opens it.\n",
      "URL=\"$1\"\n",
      "if [ -z \"$URL\" ]; then\n",
      "  exit 0\n",
      "fi\n",
      "# Atomic write via temp file + mv\n",
      "TMPFILE=$(mktemp /mnt/bootstrap/.open-url.XXXXXX 2>/dev/null) || exit 0\n",
      "printf '%s' \"$URL\" > \"$TMPFILE\"\n",
      "mv \"$TMPFILE\" /mnt/bootstrap/open-url\n",
      "# Wait up to 5s for host to acknowledge (remove the file)\n",
      "i=0\n",
      "while [ $i -lt 10 ] && [ -f /mnt/bootstrap/open-url ]; do\n",
      "  sleep 0.5\n",
      "  i=$((i + 1))\n",
      "done\n",
      "exit 0\n",
      "XDGOPEN_EOF\n",
      "chmod +x /usr/local/bin/xdg-open\n",
      "ln -sf /usr/local/bin/xdg-open /usr/local/bin/open\n\n"]
  ++ ["# Create Claude configuration directory\n",
      "mkdir -p /home/claude/.claude\n",
      "chown claude:claude /home/claude/.claude\n\n"]
  ++ ["# Symlink read-only Claude configuration files\n"]
  ++ (["CLAUDE.md", "keybindings.json"].flatMap fun file =>
       ["if [ -e /mnt/host-claude/" ++ file ++ " ]; then\n",
        "  ln -sf /mnt/host-claude/" ++ file ++ " /home/claude/.claude/" ++ file ++ "\n",
        "fi\n"])
  ++ ["\n"]
  ++ ["# Copy settings.json (may need modifications) - only if not already present\n",
      "if [ -f /mnt/host-claude/settings.json ] && [ ! -e /home/claude/.claude/settings.json ]; then\n",
      "  cp /mnt/host-claude/settings.json /home/claude/.claude/settings.json\n",
      "  chown claude:claude /home/claude/.claude/settings.json\n",
      "fi\n\n"]
  ++ ["# Create writable directories with host content\n"]
  ++ (["skills", "plugins"].flatMap fun dir =>
       ["mkdir -p /home/claude/.claude/" ++ dir ++ "\n",
        "if [ -d /mnt/host-claude/" ++ dir ++ " ]; then\n",
        "  cp -r /mnt/host-claude/" ++ dir ++ "/. /home/claude/.claude/" ++ dir ++ "/ 2>/dev/null || true\n",
        "fi\n",
        "chown -R claude:claude /home/claude/.claude/" ++ dir ++ "\n"])
  ++ ["\n"]
  ++ (if persistCredentials then
        ["# Mount credentials VirtioFS share\n",
         "mkdir -p /mnt/host-credentials\n",
         "mount -t virtiofs credentials /mnt/host-credentials -o rw\n\n",
         "# Copy persisted credentials from host (if they exist and have content)\n",
         "if [ -d /mnt/host-credentials ]; then\n",
         "  if [ -s /mnt/host-credentials/.credentials.json ]; then\n",
         "    cp /mnt/host-credentials/.credentials.json /home/claude/.claude/.credentials.json\n",
         "    chown claude:claude /home/claude/.claude/.credentials.json\n",
         "    [ \"$FAIZE_DEBUG\" = \"1\" ] && echo \"Restored .credentials.json from host\"\n",
         "  fi\n",
         "  if [ -s /mnt/host-credentials/claude.json ]; then\n",
         "    cp /mnt/host-credentials/claude.json /home/claude/.claude.json\n",
         "    chown claude:claude /home/claude/.claude.json\n",
         "    [ \"$FAIZE_DEBUG\" = \"1\" ] && echo \"Restored .claude.json from host\"\n",
         "  fi\n",
         "fi\n\n"]
      else [])
  ++ ["# Rewrite host paths in plugin configs to VM paths\n",
      "for jsonfile in /home/claude/.claude/plugins/*.json; do\n",
      "  [ -f \"$jsonfile\" ] || continue\n",
      "  # Replace macOS home paths: /Users/<user>/.claude/ -> /home/claude/.claude/\n",
      "  sed -i 's|/Users/[^/]*/.claude/|/home/claude/.claude/|g' \"$jsonfile\"\n",
      "  # Replace Linux home paths: /home/<user>/.claude/ -> /home/claude/.claude/\n",
      "  sed -i 's|/home/[^\"]*.claude/|/home/claude/.claude/|g' \"$jsonfile\"\n",
      "done\n"]
  ++ ["# Rewrite projectPath to VM workspace\n",
      "if [ -f /home/claude/.claude/plugins/installed_plugins.json ]; then\n"]
  ++ ["  sed -i 's|\"projectPath\": \"[^\"]*\"|\"projectPath\": \"" ++
        (⟨replaceAllChar vmWorkspace.data (Char.ofNat 39) []⟩ : String) ++
        "\"|g' /home/claude/.claude/plugins/installed_plugins.json\n"]
  ++ ["fi\n"]
  ++ ["if [ \"$FAIZE_DEBUG\" = \"1\" ]; then\n",
      "  echo 'Verifying path rewrite...'\n",
      "  grep -o 'installLocation.*' /home/claude/.claude/plugins/known_marketplaces.json 2>/dev/null | head -2 || echo 'known_marketplaces.json missing'\n",
      "fi\n",
      "\n"]
  ++ (if projectDir ≠ "" then ["cd " ++ shellQuote projectDir ++ "\n\n"]
      else ["cd /workspace\n\n"])
  ++ ["# Test npm registry connectivity (debug only)\n",
      "if [ \"$FAIZE_DEBUG\" = \"1\" ]; then\n",
      "  if wget -q --spider --timeout=3 https://registry.npmjs.org 2>/dev/null; then\n",
      "    echo 'npm registry OK'\n",
      "  else\n",
      "    echo 'npm registry FAILED'\n",
      "  fi\n",
      "fi\n\n"]
  ++ ["# Background OAuth callback relay poller\n",
      "(\n",
      "  while true; do\n",
      "    if [ -f /mnt/bootstrap/auth-callback ]; then\n",
      "      mv /mnt/bootstrap/auth-callback /tmp/auth-callback-$$ 2>/dev/null || \x7b sleep 1; continue; \x7d\n",
      "      CALLBACK_URL=$(cat /tmp/auth-callback-$$ 2>/dev/null) || true\n",
      "      rm -f /tmp/auth-callback-$$\n",
      "      case \"$CALLBACK_URL\" in\n",
      "        http://localhost:[0-9]*/*)  \n",
      "          wget -q -O /dev/null \"$CALLBACK_URL\" 2>/dev/null || true\n",
      "          ;;\n",
      "      esac\n",
      "    fi\n",
      "    sleep 1\n",
      "  done\n",
      ") &\n\n"]
  ++ ["# Background terminal resize watcher\n",
      "(\n",
      "  LAST_SIZE=\"\"\n",
      "  while true; do\n",
      "    if [ -f /mnt/bootstrap/termsize ]; then\n",
      "      NEW_SIZE=$(cat /mnt/bootstrap/termsize 2>/dev/null) || true\n",
      "      if [ -n \"$NEW_SIZE\" ] && [ \"$NEW_SIZE\" != \"$LAST_SIZE\" ]; then\n",
      "        LAST_SIZE=\"$NEW_SIZE\"\n",
      "        COLS=$(echo $NEW_SIZE | cut -d' ' -f1)\n",
      "        ROWS=$(echo $NEW_SIZE | cut -d' ' -f2)\n",
      "        if [ -n \"$COLS\" ] && [ -n \"$ROWS\" ]; then\n",
      "          # Resize only the first PTY slave (created by script)\n",
      "          # stty TIOCSWINSZ ioctl triggers SIGWINCH to the PTY's\n",
      "          # foreground process group automatically\n",
      "          PTY=$(ls /dev/pts/[0-9]* 2>/dev/null | head -1) || true\n",
      "          if [ -n \"$PTY\" ]; then\n",
      "            stty -F \"$PTY\" cols $COLS rows $ROWS 2>/dev/null || true\n",
      "          fi\n",
      "        fi\n",
      "      fi\n",
      "    fi\n",
      "    sleep 1\n",
      "  done\n",
      ") &\n",
      "RESIZE_WATCHER_PID=$!\n\n"]
  ++ ["# Launch Claude CLI as non-root user with PTY allocation via script command\n",
      "# The script command allocates a PTY which Claude/Ink requires for raw mode\n",
      "# Disable exit-on-error for the script command to prevent kernel panic if it fails\n",
      "set +e\n",
      "script -q -c \"su -s /bin/sh claude -c 'export HOME=/home/claude && export PATH=/usr/local/bin:/usr/bin:/bin && export GIT_DISCOVERY_ACROSS_FILESYSTEM=1 && cd \\$\x7bPWD\x7d && exec claude'\" /dev/null\n",
      "CLAUDE_EXIT=$?\n\n",
      "echo \"Claude exited with code: $CLAUDE_EXIT\"\n\n",
      "# Shutdown gracefully\n",
      "cleanup\n"]

set_option maxRecDepth 4096

/-- **C2 (counterexample)** — the block-all init script contains none of the
port-53 resolver accept rules the claim lists (they are emitted only in the
domain-allowlist branch), although it does contain the default-drop rule. -/
theorem blockAll_script_no_dns_accept :
    (generateClaudeInitScript [] "" (some blockAllPolicy) false []).contains
      "iptables -A OUTPUT -p udp -d 8.8.8.8 --dport 53 -j ACCEPT\n" = false ∧
    (generateClaudeInitScript [] "" (some blockAllPolicy) false []).contains
      "iptables -A OUTPUT -p udp -d 1.1.1.1 --dport 53 -j ACCEPT\n" = false ∧
    (generateClaudeInitScript [] "" (some blockAllPolicy) false []).contains
      "iptables -A OUTPUT -p tcp -d 8.8.8.8 --dport 53 -j ACCEPT\n" = false ∧
    (generateClaudeInitScript [] "" (some blockAllPolicy) false []).contains
      "iptables -A OUTPUT -p tcp -d 1.1.1.1 --dport 53 -j ACCEPT\n" = false ∧
    (generateClaudeInitScript [] "" (some blockAllPolicy) false []).contains
      "iptables -P OUTPUT DROP\n" = true := by
  decide

/-- **C2 (amended)** — for the block-all policy the generated init script
applies exactly these firewall rules, in this order: set the outbound default
policy to DROP, accept ESTABLISHED/RELATED, accept loopback, and terminate
with the catch-all `FAIZE_DENY:` log rule; no port-53 resolver accepts are
emitted in the block-all branch. -/
theorem blockAll_script_firewall_order :
    (generateClaudeInitScript [] "" (some blockAllPolicy) false []).filter
        (fun c => goHasPrefix c "iptables") =
      ["iptables -P OUTPUT DROP\n",
       "iptables -A OUTPUT -m state --state ESTABLISHED,RELATED -j ACCEPT\n",
       "iptables -A OUTPUT -o lo -j ACCEPT\n",
       "iptables -A OUTPUT -j LOG --log-prefix \"FAIZE_DENY: \" --log-level 4 -m limit --limit 5/sec 2>/dev/null || echo 'Warning: network logging unavailable (missing xt_LOG kernel module)'\n"] := by
  decide

/-- **C9** — `Parse ["*.com"]` yields the policy with `AllowAll = false`,
`Blocked = false` and empty domain and wildcard sets, and for that policy
the generated init script contains no iptables command at all (no chunk even
mentions `iptables`), while DNS is still routed through the local dnsmasq
logging forwarder. -/
theorem emptyPolicy_script_no_iptables :
    Parse ["*.com"] =
      { AllowAll := false, Blocked := false, Domains := [], Wildcards := [] } ∧
    (generateClaudeInitScript [] ""
        (some { AllowAll := false, Blocked := false, Domains := [], Wildcards := [] })
        false []).all (fun c => !(goContains c "iptables")) = true ∧
    (generateClaudeInitScript [] ""
        (some { AllowAll := false, Blocked := false, Domains := [], Wildcards := [] })
        false []).contains "# Configure dnsmasq as logging DNS forwarder\n" = true ∧
    (generateClaudeInitScript [] ""
        (some { AllowAll := false, Blocked := false, Domains := [], Wildcards := [] })
        false []).contains "dnsmasq\n\n" = true ∧
    (generateClaudeInitScript [] ""
        (some { AllowAll := false, Blocked := false, Domains := [], Wildcards := [] })
        false []).contains "echo 'nameserver 127.0.0.1' > /etc/resolv.conf\n\n" = true := by
  decide

end Faize